import Mathlib

/-!
Verification development for the puft application-assembly engine
(`src/puft/core/assembler/assembler.py` and `src/puft/core/app/puft.py`).

The embedding models Python dictionaries as insertion-ordered association
lists with string keys (`dictSet` mirrors `d[k] = v`: update in place when
the key exists, append otherwise), Python values as `PyVal`, and the
assembler's phase logic as pure Lean functions translated branch by branch
from the source.  Parts of the repository that the assembler imports but
whose files are not present (the `ConfigIe.parse` method, `NamedIe
.find_by_name`, the enum value sets) are modelled from the specification
and are marked as such in their doc comments.
-/

/-- Python values appearing in configuration mappings. -/
inductive PyVal
  | str (s : String)
  | pybool (b : Bool)
  | pyint (n : Int)
  deriving DecidableEq, Repr

/-- A Python dict with string keys, as an insertion-ordered association
list.  Lookup `d.get(k)`. -/
def dictGet? {β : Type} (d : List (String × β)) (k : String) : Option β :=
  (d.find? (fun p => p.1 == k)).map (fun p => p.2)

/-- Python dict assignment `d[k] = v`: replace the value in place when the
key is present, append the pair otherwise. -/
def dictSet {β : Type} (d : List (String × β)) (k : String) (v : β) :
    List (String × β) :=
  if d.any (fun p => p.1 == k) then
    d.map (fun p => if p.1 == k then (k, v) else p)
  else d ++ [(k, v)]

theorem dictGet?_nil {β : Type} (k : String) :
    dictGet? ([] : List (String × β)) k = none := rfl

theorem dictGet?_cons {β : Type} (p : String × β) (d : List (String × β))
    (k : String) :
    dictGet? (p :: d) k = if p.1 = k then some p.2 else dictGet? d k := by
  by_cases h : p.1 = k <;> simp [dictGet?, List.find?_cons, h]

theorem dictSet_nil {β : Type} (k : String) (v : β) :
    dictSet ([] : List (String × β)) k v = [(k, v)] := by
  simp [dictSet]

theorem dictSet_cons {β : Type} (p : String × β) (d : List (String × β))
    (k : String) (v : β) :
    dictSet (p :: d) k v =
      if p.1 = k then
        (k, v) :: d.map (fun q => if q.1 == k then (k, v) else q)
      else p :: dictSet d k v := by
  by_cases hp : p.1 = k
  · simp [dictSet, hp]
  · by_cases hd : d.any (fun q => q.1 == k) <;> simp [dictSet, hp, hd]

theorem dictGet?_map_replace {β : Type} (d : List (String × β))
    (k k2 : String) (v : β) (h : k ≠ k2) :
    dictGet? (d.map (fun q => if q.1 == k2 then (k2, v) else q)) k =
      dictGet? d k := by
  induction d with
  | nil => rfl
  | cons q d ih =>
      simp only [List.map_cons]
      by_cases hq : q.1 = k2
      · rw [if_pos (by simpa using hq)]
        rw [dictGet?_cons, dictGet?_cons, if_neg (Ne.symm h), ih,
          if_neg (show ¬ q.1 = k from fun hh => h (hh ▸ hq ▸ rfl))]
      · rw [if_neg (by simpa using hq)]
        rw [dictGet?_cons, dictGet?_cons, ih]

theorem dictGet?_dictSet_self {β : Type} (d : List (String × β))
    (k : String) (v : β) : dictGet? (dictSet d k v) k = some v := by
  induction d with
  | nil => simp [dictSet_nil, dictGet?_cons]
  | cons p d ih =>
      rw [dictSet_cons]
      by_cases hp : p.1 = k
      · rw [if_pos hp, dictGet?_cons, if_pos rfl]
      · rw [if_neg hp, dictGet?_cons, if_neg hp, ih]

theorem dictGet?_dictSet_ne {β : Type} (d : List (String × β))
    (k k2 : String) (v : β) (h : k ≠ k2) :
    dictGet? (dictSet d k2 v) k = dictGet? d k := by
  induction d with
  | nil => simp [dictSet_nil, dictGet?_cons, Ne.symm h]
  | cons p d ih =>
      rw [dictSet_cons]
      by_cases hp : p.1 = k2
      · rw [if_pos hp, dictGet?_cons, if_neg (Ne.symm h),
          dictGet?_map_replace _ _ _ _ h, dictGet?_cons,
          if_neg (show ¬ p.1 = k from fun hh => h (hh ▸ hp ▸ rfl))]
      · rw [if_neg hp, dictGet?_cons, dictGet?_cons, ih]

/-! ## Config Source Resolver (`Assembler._find_config_files`) -/

/-- Split a character list at every dot, mirroring Python
`filename.split(".")` (so `"".split(".") == [""]` and a leading or
trailing dot yields an empty segment). -/
def splitDotAux : List Char → List Char → List (List Char)
  | [], acc => [acc.reverse]
  | c :: rest, acc =>
      if c = '.' then acc.reverse :: splitDotAux rest []
      else splitDotAux rest (c :: acc)

/-- Python `filename.split(".")` on a string. -/
def splitOnDot (s : String) : List String :=
  (splitDotAux s.data []).map (fun cs => String.mk cs)

/-- Tag under which an environment-less configuration file is registered
(`AppModeEnum.PROD` in `_find_config_files`).  Modelled from the spec: the
enum module is not under src; the spec fixes production as the default
environment and its scenarios pair `db.yaml` with `db.dev.yaml`. -/
def prodTag : String := "prod"

/-- Result of `warepy.join_paths` for one directory and one filename
(the library is external; only the value identity of the produced path
matters to the assembler). -/
def joinPaths (dir filename : String) : String := dir ++ "/" ++ filename

/-- One entry of `os.listdir(config_path)` together with the
`os.path.isfile` judgement for it. -/
structure FileEntry where
  filename : String
  isFile : Bool
  deriving DecidableEq, Repr

/-- Mapping from environment tag to config file path (the inner dict of
`_find_config_files`, keyed by `AppModeEnum`). -/
abbrev SourceMap := List (String × String)

/-- Mapping from component name to its `SourceMap` (the
`source_map_by_name` dict). -/
abbrev SourceMapByName := List (String × SourceMap)

/-- Handling of one directory entry inside the `_find_config_files` loop:
skip non-files; split the filename on dots; with 2 segments and a
recognized extension register under the production tag; with 3 segments,
a recognized environment tag and a recognized extension register under
that tag; skip every other shape. -/
def fileStep (envTags exts : List String) (configPath : String)
    (acc : SourceMapByName) (entry : FileEntry) : SourceMapByName :=
  if entry.isFile then
    let filePath := joinPaths configPath entry.filename
    match splitOnDot entry.filename with
    | [configName, ext] =>
        if ext ∈ exts then
          dictSet acc configName
            (dictSet ((dictGet? acc configName).getD []) prodTag filePath)
        else acc
    | [configName, tag, ext] =>
        if tag ∈ envTags ∧ ext ∈ exts then
          dictSet acc configName
            (dictSet ((dictGet? acc configName).getD []) tag filePath)
        else acc
    | _ => acc
  else acc

/-- `Assembler._find_config_files`: fold `fileStep` over the directory
listing, starting from the empty map.  `envTags` stands for
`get_enum_values(AppModeEnum)` and `exts` for
`get_enum_values(ConfigExtensionEnum)` (both enum modules are not under
src, so the recognized sets are kept abstract). -/
def findConfigFiles (envTags exts : List String) (configPath : String)
    (listing : List FileEntry) : SourceMapByName :=
  listing.foldl (fileStep envTags exts configPath) []

/-- A regular file whose name has no recognized 2- or 3-segment shape
leaves the accumulated map untouched. -/
theorem fileStep_skip (envTags exts : List String) (cp : String)
    (acc : SourceMapByName) (fn : String)
    (h2 : ∀ n e, splitOnDot fn = [n, e] → e ∉ exts)
    (h3 : ∀ n t e, splitOnDot fn = [n, t, e] → t ∉ envTags ∨ e ∉ exts) :
    fileStep envTags exts cp acc ⟨fn, true⟩ = acc := by
  rcases hs : splitOnDot fn with _ | ⟨a, _ | ⟨b, _ | ⟨c, _ | ⟨d, rest⟩⟩⟩⟩
  · simp [fileStep, hs]
  · simp [fileStep, hs]
  · have hne := h2 a b hs
    simp [fileStep, hs, hne]
  · have hne : ¬ (b ∈ envTags ∧ c ∈ exts) := fun hand =>
      (h3 a b c hs).elim (fun h => h hand.1) (fun h => h hand.2)
    simp [fileStep, hs, hne]
  · simp [fileStep, hs]

/-- C2 — Config resolver filename grammar: for a regular file directly
inside the configuration directory, splitting its name on dots yields the
handling: exactly 2 segments with a recognized extension registers the
name under the production environment; exactly 3 segments with a
recognized environment tag and recognized extension registers the name
under that tag; every other segment count, unrecognized tag, or
unrecognized extension causes the file to be skipped silently (the scan
is total and returns the unchanged map). -/
theorem c2_config_filename_grammar (envTags exts : List String)
    (cp fn : String) :
    (∀ n e, splitOnDot fn = [n, e] → e ∈ exts →
      findConfigFiles envTags exts cp [⟨fn, true⟩] =
        [(n, [(prodTag, joinPaths cp fn)])]) ∧
    (∀ n t e, splitOnDot fn = [n, t, e] → t ∈ envTags → e ∈ exts →
      findConfigFiles envTags exts cp [⟨fn, true⟩] =
        [(n, [(t, joinPaths cp fn)])]) ∧
    (∀ listing : List FileEntry,
      (∀ n e, splitOnDot fn = [n, e] → e ∉ exts) →
      (∀ n t e, splitOnDot fn = [n, t, e] → t ∉ envTags ∨ e ∉ exts) →
      findConfigFiles envTags exts cp (listing ++ [⟨fn, true⟩]) =
        findConfigFiles envTags exts cp listing) := by
  refine ⟨?_, ?_, ?_⟩
  · intro n e hs he
    simp [findConfigFiles, fileStep, hs, he, dictSet_nil, dictGet?_nil]
  · intro n t e hs ht he
    simp [findConfigFiles, fileStep, hs, ht, he, dictSet_nil, dictGet?_nil]
  · intro listing h2 h3
    unfold findConfigFiles
    rw [List.foldl_append]
    simp only [List.foldl_cons, List.foldl_nil]
    exact fileStep_skip envTags exts cp _ fn h2 h3

/-- Witness for C2 at concrete inputs: `db.yaml` registers `db` under the
production tag, `db.dev.yaml` registers `db` under `dev`, and
`readme.txt` is skipped. -/
theorem c2_config_filename_grammar_witness :
    findConfigFiles ["dev", "test", "prod"] ["yaml", "json"] "./configs"
        [⟨"db.yaml", true⟩] = [("db", [("prod", "./configs/db.yaml")])] ∧
    findConfigFiles ["dev", "test", "prod"] ["yaml", "json"] "./configs"
        [⟨"db.dev.yaml", true⟩] =
      [("db", [("dev", "./configs/db.dev.yaml")])] ∧
    findConfigFiles ["dev", "test", "prod"] ["yaml", "json"] "./configs"
        ([] ++ [⟨"readme.txt", true⟩]) =
      findConfigFiles ["dev", "test", "prod"] ["yaml", "json"] "./configs"
        [] := by
  refine ⟨?_, ?_, ?_⟩
  · exact (c2_config_filename_grammar _ _ _ _).1 "db" "yaml"
      (by decide) (by decide)
  · exact (c2_config_filename_grammar _ _ _ _).2.1 "db" "dev" "yaml"
      (by decide) (by decide) (by decide)
  · refine (c2_config_filename_grammar _ _ _ _).2.2 []
      (fun n e h => ?_) (fun n t e h => ?_)
    · rw [show splitOnDot "readme.txt" = ["readme", "txt"] from by decide]
        at h
      injection h with ha hb
      injection hb with hb hc
      subst hb
      decide
    · rw [show splitOnDot "readme.txt" = ["readme", "txt"] from by decide]
        at h
      injection h with ha hb
      injection hb with hb hc
      exact absurd hc (by simp)

/-! ## Config Materializer (`ConfigIe.parse`, `Assembler._assemble_sv_config`) -/

/-- One Config Source Entry: component name plus its per-environment
source map (`ConfigIe(name=..., source_by_app_mode=...)` as built by
`_assign_config_ies`). -/
structure ConfigIe where
  name : String
  source_by_app_mode : SourceMap
  deriving DecidableEq, Repr

/-- Modelled from the spec: `NamedIe.find_by_name` (the `named_ie` module
is not under src).  Returns the entry whose name equals the requested one;
its `ValueError` on absence is rendered as `none`. -/
def findByName (nm : String) (ies : List ConfigIe) : Option ConfigIe :=
  ies.find? (fun ie => ie.name == nm)

/-- Errors that materialization can raise: the `ValueError` of
`_assemble_sv_config` when errors are enabled and the name is unknown, and
the resolution error raised inside `ConfigIe.parse` naming the component
and the environment. -/
inductive ResolutionError
  | configNotFound (nm : String)
  | noSource (component : String) (env : String)
  deriving DecidableEq, Repr

/-- Modelled from the spec: source-file selection inside `ConfigIe.parse`
(module not under src) — select the file for the active environment tag,
fall back to the production-tagged file if one exists. -/
def selectSource (m : SourceMap) (appMode : String) : Option String :=
  match dictGet? m appMode with
  | some p => some p
  | none => dictGet? m prodTag

/-- Merge a caller-supplied override mapping on top of a base mapping
(override keys win); `none` means no override was given. -/
def mergeConfig (base : List (String × PyVal))
    (updateWith : Option (List (String × PyVal))) :
    List (String × PyVal) :=
  match updateWith with
  | none => base
  | some u => u.foldl (fun acc kv => dictSet acc kv.1 kv.2) base

/-- Inject the always-present `root_path` field into a materialized
configuration. -/
def injectRootPath (cfg : List (String × PyVal)) (rootPath : String) :
    List (String × PyVal) :=
  dictSet cfg "root_path" (PyVal.str rootPath)

/-- Modelled from the spec: `ConfigIe.parse` (module not under src).
Select the file for the active environment with production fallback, fail
with a resolution error naming the component and environment when neither
exists, parse the selected file into a flat mapping (`fileContent`
abstracts the file system), merge the caller override on top, then inject
the root path. -/
def ConfigIe.parse (ie : ConfigIe)
    (fileContent : String → List (String × PyVal))
    (appMode rootPath : String)
    (updateWith : Option (List (String × PyVal))) :
    Except ResolutionError (List (String × PyVal)) :=
  match selectSource ie.source_by_app_mode appMode with
  | none => Except.error (ResolutionError.noSource ie.name appMode)
  | some path =>
      Except.ok (injectRootPath (mergeConfig (fileContent path) updateWith)
        rootPath)

/-- The assembler state that materialization reads: the resolved Config
Source Entries, the file system (abstracted as a content function), the
root directory, the caller override map `extra_configs_by_name`, and the
active app mode derived from `mode_enum`. -/
structure AssemblerEnv where
  configIes : List ConfigIe
  fileContent : String → List (String × PyVal)
  rootDir : String
  extraConfigsByName : List (String × List (String × PyVal))
  appMode : String

/-- `Assembler._assemble_sv_config`: look the name up among the Config
Source Entries; when absent, raise `ValueError` if errors are enabled and
return the empty dict otherwise; when present, delegate to
`ConfigIe.parse` with the override looked up by name. -/
def assembleSvConfig (env : AssemblerEnv) (nm : String)
    (isErrorsEnabled : Bool) :
    Except ResolutionError (List (String × PyVal)) :=
  match findByName nm env.configIes with
  | none =>
      if isErrorsEnabled then
        Except.error (ResolutionError.configNotFound nm)
      else Except.ok []
  | some ie =>
      ie.parse env.fileContent env.appMode env.rootDir
        (dictGet? env.extraConfigsByName nm)

/-- C1 — Configuration fallback law: when a known component has a file
only under the production tag, materialization under any active
environment tag selects that production file; when neither a file for the
exact active tag nor a production file exists, materialization fails with
a resolution error naming the component and the environment. -/
theorem c1_production_fallback (env : AssemblerEnv) (nm : String)
    (ie : ConfigIe) (h : findByName nm env.configIes = some ie) :
    (∀ p, dictGet? ie.source_by_app_mode prodTag = some p →
      (∀ t, t ≠ prodTag → dictGet? ie.source_by_app_mode t = none) →
      assembleSvConfig env nm false =
        Except.ok (injectRootPath
          (mergeConfig (env.fileContent p)
            (dictGet? env.extraConfigsByName nm)) env.rootDir)) ∧
    (dictGet? ie.source_by_app_mode env.appMode = none →
      dictGet? ie.source_by_app_mode prodTag = none →
      assembleSvConfig env nm false =
        Except.error (ResolutionError.noSource nm env.appMode)) := by
  have hname : ie.name = nm := by
    have := List.find?_some h
    simpa using this
  constructor
  · intro p hprod hnone
    by_cases ht : env.appMode = prodTag
    · simp [assembleSvConfig, h, ConfigIe.parse, selectSource, ht, hprod]
    · simp [assembleSvConfig, h, ConfigIe.parse, selectSource,
        hnone env.appMode ht, hprod]
  · intro h1 h2
    simp [assembleSvConfig, h, ConfigIe.parse, selectSource, h1, h2, hname]

/-- Witness for C1: a `db` entry with only a production file materializes
under `dev` to that file's content plus the injected root path, and a `db`
entry with no file at all fails naming `db` and `dev`. -/
theorem c1_production_fallback_witness :
    assembleSvConfig
        ⟨[⟨"db", [("prod", "/c/db.yaml")]⟩],
          fun _ => [("uri", PyVal.str "x")], "/r", [], "dev"⟩ "db" false =
      Except.ok [("uri", PyVal.str "x"), ("root_path", PyVal.str "/r")] ∧
    assembleSvConfig
        ⟨[⟨"db", []⟩], fun _ => [], "/r", [], "dev"⟩ "db" false =
      Except.error (ResolutionError.noSource "db" "dev") := by
  constructor
  · have h := (c1_production_fallback
        ⟨[⟨"db", [("prod", "/c/db.yaml")]⟩],
          fun _ => [("uri", PyVal.str "x")], "/r", [], "dev"⟩ "db"
        ⟨"db", [("prod", "/c/db.yaml")]⟩ rfl).1 "/c/db.yaml" rfl
      (fun t ht => by
        rw [dictGet?_cons, if_neg (fun hh => ht hh.symm)]
        rfl)
    exact h.trans (by rfl)
  · exact (c1_production_fallback
        ⟨[⟨"db", []⟩], fun _ => [], "/r", [], "dev"⟩ "db"
        ⟨"db", []⟩ rfl).2 rfl rfl

/-- C3 counterexample: for the unknown component name `foo` with a
caller-supplied override, `_assemble_sv_config` (errors disabled) returns
the empty dict, which is not the override merged onto an empty base plus
the injected root path that the claim demands. -/
theorem c3_unknown_name_counterexample :
    assembleSvConfig
        ⟨[], fun _ => [], "/r", [("foo", [("k", PyVal.str "v")])], "dev"⟩
        "foo" false = Except.ok [] ∧
    (Except.ok ([] : List (String × PyVal)) :
        Except ResolutionError (List (String × PyVal))) ≠
      Except.ok (injectRootPath
        (mergeConfig [] (some [("k", PyVal.str "v")])) "/r") := by
  refine ⟨rfl, fun h => ?_⟩
  have h2 : ([] : List (String × PyVal)) =
      injectRootPath (mergeConfig [] (some [("k", PyVal.str "v")])) "/r" :=
    Except.ok.inj h
  rw [show injectRootPath (mergeConfig [] (some [("k", PyVal.str "v")])) "/r"
      = [("k", PyVal.str "v"), ("root_path", PyVal.str "/r")] from rfl] at h2
  exact List.noConfusion h2

/-- C3 amended: materializing an unknown component name with the error
flag unset never fails, and the result is the empty mapping — the caller
override is not merged and no root path is injected by materialization
itself. -/
theorem c3_unknown_name_empty (env : AssemblerEnv) (nm : String)
    (h : findByName nm env.configIes = none) :
    assembleSvConfig env nm false = Except.ok [] := by
  simp [assembleSvConfig, h]

/-- Witness for the amended C3: the unknown name `foo`, even with an
override supplied for it, materializes to the empty mapping without an
error. -/
theorem c3_unknown_name_empty_witness :
    assembleSvConfig
        ⟨[], fun _ => [], "/r", [("foo", [("k", PyVal.str "v")])], "dev"⟩
        "foo" false = Except.ok [] :=
  c3_unknown_name_empty
    ⟨[], fun _ => [], "/r", [("foo", [("k", PyVal.str "v")])], "dev"⟩
    "foo" rfl

/-! ## Built-in service selection (`Assembler._assign_builtin_sv_ies`) -/

/-- The three built-in descriptor types dispatched by the assembler
(`PuftSvIe`, `DbSvIe`, `SocketSvIe`). -/
inductive BuiltinKind
  | puft
  | db
  | socket
  deriving DecidableEq, Repr

/-- One built-in service descriptor; only the Puft (Host) entry carries
the mode, host and port arguments. -/
structure BuiltinSvIe where
  kind : BuiltinKind
  svName : String
  modeEnum : Option String := none
  hostArg : Option String := none
  portArg : Option Nat := none
  deriving DecidableEq, Repr

theorem findByName_eq_none_iff (nm : String) (ies : List ConfigIe) :
    findByName nm ies = none ↔ ∀ ie ∈ ies, ie.name ≠ nm := by
  simp [findByName, List.find?_eq_none]

theorem findByName_isSome_iff (nm : String) (ies : List ConfigIe) :
    (findByName nm ies).isSome ↔ ∃ ie ∈ ies, ie.name = nm := by
  simp [findByName, List.find?_isSome]

/-- `Assembler._assign_builtin_sv_ies`: always include the Puft (Host)
descriptor built from mode, host and port; when the Config Source Entry
list is non-empty, additionally include the Db descriptor iff an entry
named "db" is found and the Socket descriptor iff an entry named "socket"
is found, in which case `socket_enabled` is also set.  Returns the
descriptor list together with the `socket_enabled` flag. -/
def assignBuiltinSvIes (configIes : List ConfigIe)
    (modeEnum hostArg : String) (port : Nat) :
    List BuiltinSvIe × Bool :=
  let base : List BuiltinSvIe :=
    [⟨BuiltinKind.puft, "puft", some modeEnum, some hostArg, some port⟩]
  if configIes.isEmpty then (base, false)
  else
    let withDb :=
      match findByName "db" configIes with
      | none => base
      | some _ => base ++ [⟨BuiltinKind.db, "db", none, none, none⟩]
    match findByName "socket" configIes with
    | none => (withDb, false)
    | some _ =>
        (withDb ++ [⟨BuiltinKind.socket, "socket", none, none, none⟩], true)

/-- C4 — Built-in selection law: the Host descriptor is always selected;
the Db descriptor is selected iff a Config Source Entry named "db"
exists; the Socket descriptor is selected iff one named "socket" exists;
and mode, host and port (the only other inputs) never change which kinds
are selected. -/
theorem c4_builtin_selection (configIes : List ConfigIe)
    (m h : String) (p : Nat) :
    (BuiltinKind.puft ∈
      ((assignBuiltinSvIes configIes m h p).1).map BuiltinSvIe.kind) ∧
    (BuiltinKind.db ∈
        ((assignBuiltinSvIes configIes m h p).1).map BuiltinSvIe.kind ↔
      ∃ ie ∈ configIes, ie.name = "db") ∧
    (BuiltinKind.socket ∈
        ((assignBuiltinSvIes configIes m h p).1).map BuiltinSvIe.kind ↔
      ∃ ie ∈ configIes, ie.name = "socket") ∧
    (∀ m2 h2 : String, ∀ p2 : Nat,
      ((assignBuiltinSvIes configIes m2 h2 p2).1).map BuiltinSvIe.kind =
        ((assignBuiltinSvIes configIes m h p).1).map BuiltinSvIe.kind) := by
  by_cases hemp : configIes.isEmpty
  · have he : configIes = [] := List.isEmpty_iff.mp hemp
    subst he
    simp [assignBuiltinSvIes]
  · have hdbiff := findByName_isSome_iff "db" configIes
    have hsockiff := findByName_isSome_iff "socket" configIes
    rcases hdb : findByName "db" configIes with _ | iedb <;>
      rcases hsock : findByName "socket" configIes with _ | iesock <;>
        rw [hdb] at hdbiff <;> rw [hsock] at hsockiff <;>
          simp only [Option.isSome_none, Option.isSome_some,
            Bool.false_eq_true, false_iff, true_iff] at hdbiff hsockiff <;>
          simp [assignBuiltinSvIes, hemp, hdb, hsock, hdbiff, hsockiff]

/-- Witness for C4 at a concrete input: with entries named "db" and
"sess" (no "socket"), the selected kinds include Host and Db but not
Socket. -/
theorem c4_builtin_selection_witness :
    (BuiltinKind.puft ∈
      ((assignBuiltinSvIes [⟨"db", []⟩, ⟨"sess", []⟩] "dev" "localhost"
        5000).1).map BuiltinSvIe.kind) ∧
    (BuiltinKind.db ∈
      ((assignBuiltinSvIes [⟨"db", []⟩, ⟨"sess", []⟩] "dev" "localhost"
        5000).1).map BuiltinSvIe.kind) ∧
    ¬ (BuiltinKind.socket ∈
      ((assignBuiltinSvIes [⟨"db", []⟩, ⟨"sess", []⟩] "dev" "localhost"
        5000).1).map BuiltinSvIe.kind) := by
  have h := c4_builtin_selection [⟨"db", []⟩, ⟨"sess", []⟩] "dev"
    "localhost" 5000
  refine ⟨h.1, h.2.1.mpr ⟨⟨"db", []⟩, by decide, rfl⟩, fun hmem => ?_⟩
  rcases h.2.2.1.mp hmem with ⟨ie, hie, hname⟩
  have : ie = ⟨"db", []⟩ ∨ ie = ⟨"sess", []⟩ := by
    simpa using hie
  rcases this with h5 | h5 <;> subst h5 <;> exact absurd hname (by decide)

/-! ## Built-in construction and socket phase
(`_run_builtin_sv_ies`, `_build_socks`) -/

/-- Which built-in services exist after `_run_builtin_sv_ies`
(`self.puft`, `self.db`, `self.socket`). -/
structure BuiltState where
  puftBuilt : Bool
  dbBuilt : Bool
  socketBuilt : Bool
  deriving DecidableEq, Repr

/-- `Assembler._run_builtin_sv_ies`: construct each selected built-in in
list order by dispatching on the descriptor type (`PuftSvIe` /
`DbSvIe` / `SocketSvIe`). -/
def runBuiltinSvIes (ies : List BuiltinSvIe) : BuiltState :=
  ies.foldl (fun st ie =>
    match ie.kind with
    | BuiltinKind.puft => { st with puftBuilt := true }
    | BuiltinKind.db => { st with dbBuilt := true }
    | BuiltinKind.socket => { st with socketBuilt := true })
    ⟨false, false, false⟩

/-- One socket-namespace descriptor (`SockIe`): namespace path, handler
class and error handler. -/
structure SockIe where
  ns : String
  handlerClass : String
  errorHandler : String
  deriving DecidableEq, Repr

/-- `Assembler._build_socks`: only when socket descriptors exist and the
socket layer is enabled, bind each handler class and each error handler
to its namespace; otherwise perform no binding at all.  The two result
lists are the `on_namespace` and `on_error` registrations. -/
def buildSocks (sockIes : List SockIe) (socketEnabled : Bool) :
    List (String × String) × List (String × String) :=
  if ¬ sockIes.isEmpty ∧ socketEnabled then
    (sockIes.map (fun c => (c.ns, c.handlerClass)),
     sockIes.map (fun c => (c.ns, c.errorHandler)))
  else ([], [])

/-- C8 — with no Config Source Entry named "socket", the socket flag
stays off, the Realtime Layer is never constructed, and the
socket-namespace phase performs no binding even when socket descriptors
are present in the Build Declaration. -/
theorem c8_no_socket_config (configIes : List ConfigIe)
    (m h : String) (p : Nat)
    (hno : ∀ ie ∈ configIes, ie.name ≠ "socket") :
    (assignBuiltinSvIes configIes m h p).2 = false ∧
    (runBuiltinSvIes
      (assignBuiltinSvIes configIes m h p).1).socketBuilt = false ∧
    (∀ sockIes : List SockIe,
      buildSocks sockIes (assignBuiltinSvIes configIes m h p).2 =
        ([], [])) := by
  have hfind : findByName "socket" configIes = none :=
    (findByName_eq_none_iff "socket" configIes).mpr hno
  by_cases hemp : configIes.isEmpty
  · have he : configIes = [] := List.isEmpty_iff.mp hemp
    subst he
    refine ⟨rfl, rfl, fun sockIes => ?_⟩
    simp [assignBuiltinSvIes, buildSocks]
  · rcases hdb : findByName "db" configIes with _ | iedb <;>
      refine ⟨?_, ?_, fun sockIes => ?_⟩ <;>
        simp [assignBuiltinSvIes, hemp, hdb, hfind, buildSocks,
          runBuiltinSvIes]

/-- Witness for C8: with a single `db` config entry and one socket
descriptor in the declaration, the socket layer is disabled, never
constructed, and the socket phase binds nothing. -/
theorem c8_no_socket_config_witness :
    (assignBuiltinSvIes [⟨"db", [("prod", "/c/db.yaml")]⟩] "dev"
      "localhost" 5000).2 = false ∧
    (runBuiltinSvIes (assignBuiltinSvIes [⟨"db", [("prod", "/c/db.yaml")]⟩]
      "dev" "localhost" 5000).1).socketBuilt = false ∧
    buildSocks [⟨"/chat", "ChatSock", "default_handler"⟩]
      (assignBuiltinSvIes [⟨"db", [("prod", "/c/db.yaml")]⟩] "dev"
        "localhost" 5000).2 = ([], []) := by
  have h := c8_no_socket_config [⟨"db", [("prod", "/c/db.yaml")]⟩] "dev"
    "localhost" 5000 (by decide)
  exact ⟨h.1, h.2.1, h.2.2 [⟨"/chat", "ChatSock", "default_handler"⟩]⟩

/-! ## Error registration (`Assembler._build_errors`,
`Puft.__init__` flag handling) -/

/-- Python class objects relevant to error registration: the engine's own
base error class `Error` (`puft.core.error.error`), a subclass of it, the
language runtime's universal `Exception`, and the metaclass `type`. -/
inductive PyClass
  | errorCls
  | childErrorCls
  | exceptionCls
  | metaType
  deriving DecidableEq, Repr

/-- Python `type(c)` applied to a class object: every ordinary class
(`Error`, its subclasses, `Exception`, and `type` itself) has the
metaclass `type`, so the result is always the `type` object, never the
class itself. -/
def pyTypeOf : PyClass → PyClass := fun _ => PyClass.metaType

/-- Handler functions registered for error classes:
`handle_wildcard_error` (the assembler's default), the
`handle_wildcard_builtin_error` for `Exception`, and caller-supplied
handlers. -/
inductive Handler
  | defaultWildcard
  | wildcardBuiltin
  | custom (n : Nat)
  deriving DecidableEq, Repr

/-- One error descriptor (`ErrorIe`): an exception class and its handler
function. -/
structure ErrorIe where
  error_class : PyClass
  handler_function : Handler
  deriving DecidableEq, Repr

/-- `Assembler._build_errors`: register each descriptor pair in order;
mark `wildcard_specified` when `type(error_ie.error_class) is Error`
holds for some descriptor; if the mark is unset, additionally register
the default wildcard handler for `Error`; finally, when the wildcard
builtin flag read from the Puft service is enabled, register
`handle_wildcard_builtin_error` for `Exception`.  The result is the
ordered list of `(error class, handler)` registrations passed to
`puft.register_error`. -/
def buildErrors (errorIes : List ErrorIe)
    (wildcardBuiltinEnabled : Bool) : List (PyClass × Handler) :=
  let explicit :=
    errorIes.map (fun ie => (ie.error_class, ie.handler_function))
  let wildcardSpecified :=
    errorIes.any (fun ie => pyTypeOf ie.error_class == PyClass.errorCls)
  let withDefault :=
    if wildcardSpecified then explicit
    else explicit ++ [(PyClass.errorCls, Handler.defaultWildcard)]
  if wildcardBuiltinEnabled then
    withDefault ++ [(PyClass.exceptionCls, Handler.wildcardBuiltin)]
  else withDefault

/-- C5 — observed behavior of `_build_errors` at the failing input: a
Build Declaration whose single error descriptor explicitly registers the
engine's base error class still gets the default wildcard handler
appended, because `type(error_ie.error_class) is Error` compares the
metaclass (always `type`) with `Error` and never holds; with zero
descriptors the default wildcard handler is registered as the claim
says. -/
theorem c5_default_handler_code_eval :
    buildErrors [⟨PyClass.errorCls, Handler.custom 0⟩] false =
      [(PyClass.errorCls, Handler.custom 0),
       (PyClass.errorCls, Handler.defaultWildcard)] ∧
    (∀ ie : ErrorIe,
      (pyTypeOf ie.error_class == PyClass.errorCls) = false) ∧
    buildErrors [] false = [(PyClass.errorCls, Handler.defaultWildcard)] := by
  exact ⟨by decide, fun ie => rfl, by decide⟩

/-- Python `str.upper()` on a string, character by character
(`k.upper()` inside `Puft._make_upper_keys`). -/
def toUpperStr (s : String) : String := String.mk (s.data.map Char.toUpper)

/-- `Puft._make_upper_keys`: rebuild the configuration mapping with every
key upper-cased. -/
def makeUpperKeys (m : List (String × PyVal)) : List (String × PyVal) :=
  m.foldl (fun acc kv => dictSet acc (toUpperStr kv.1) kv.2) []

/-- `Puft.__init__` flag computation: after `self.config =
self._make_upper_keys(config)`, read `self.config.get(
'wildcard_builtin_error_handler_enabled', True)` — note the lower-case
key against the upper-cased mapping. -/
def wildcardBuiltinErrorHandlerEnabled
    (config : List (String × PyVal)) : Bool :=
  match dictGet? (makeUpperKeys config)
      "wildcard_builtin_error_handler_enabled" with
  | some (PyVal.pybool b) => b
  | some _ => true
  | none => true

theorem charToNat_ofNat (n : Nat) (h : n < 55296) :
    (Char.ofNat n).toNat = n := by
  have hv : n.isValidChar := Or.inl h
  simp [Char.ofNat, hv, Char.ofNatAux, Char.toNat, UInt32.toNat_ofNat,
    UInt32.toNat, BitVec.toNat_ofNatLt]

/-- `Char.toUpper` never produces the lower-case letter `w`. -/
theorem charToUpper_ne_w (c : Char) : Char.toUpper c ≠ 'w' := by
  intro h
  unfold Char.toUpper at h
  simp only [ge_iff_le] at h
  split_ifs at h with hc
  · have h2 := congrArg Char.toNat h
    have h3 := charToNat_ofNat (c.toNat - 32) (by omega)
    rw [h3] at h2
    have : ('w').toNat = 119 := by decide
    omega
  · subst h
    push_neg at hc
    have : ('w').toNat = 119 := by decide
    omega

/-- No key survives `str.upper()` as the lower-case flag key. -/
theorem toUpperStr_ne_flag_key (k : String) :
    toUpperStr k ≠ "wildcard_builtin_error_handler_enabled" := by
  intro h
  have hd := congrArg String.data h
  cases hdata : k.data with
  | nil =>
      rw [show toUpperStr k = String.mk (k.data.map Char.toUpper) from rfl]
        at hd
      rw [hdata] at hd
      have hd2 : ([] : List Char) =
          ("wildcard_builtin_error_handler_enabled" : String).data := by
        simpa using hd
      exact absurd hd2 (by decide)
  | cons c cs =>
      rw [show toUpperStr k = String.mk (k.data.map Char.toUpper) from rfl]
        at hd
      rw [hdata] at hd
      simp only [List.map_cons] at hd
      have hd2 : Char.toUpper c :: cs.map Char.toUpper =
          'w' :: ("ildcard_builtin_error_handler_enabled" : String).data := by
        simpa using hd
      exact charToUpper_ne_w c (List.head_eq_of_cons_eq hd2)

/-- Every element added by `dictSet` comes from the old dict or carries
the inserted key. -/
theorem mem_dictSet {β : Type} (d : List (String × β)) (k : String)
    (v : β) : ∀ kv ∈ dictSet d k v, kv ∈ d ∨ kv.1 = k := by
  unfold dictSet
  split
  · intro kv hkv
    rcases List.mem_map.mp hkv with ⟨q, hq, hqe⟩
    by_cases hq1 : q.1 = k
    · right
      rw [← hqe]
      simp [hq1]
    · left
      rw [← hqe]
      simpa [hq1] using hq
  · intro kv hkv
    rcases List.mem_append.mp hkv with hmem | hmem
    · exact Or.inl hmem
    · right
      rw [List.mem_singleton.mp hmem]

/-- Every key of the upper-cased config is the upper-casing of some
original key. -/
theorem makeUpperKeys_keys (config : List (String × PyVal)) :
    ∀ kv ∈ makeUpperKeys config, ∃ k0, kv.1 = toUpperStr k0 := by
  unfold makeUpperKeys
  suffices h : ∀ (l acc : List (String × PyVal)),
      (∀ kv ∈ acc, ∃ k0, kv.1 = toUpperStr k0) →
      ∀ kv ∈ l.foldl (fun acc kv => dictSet acc (toUpperStr kv.1) kv.2) acc,
        ∃ k0, kv.1 = toUpperStr k0 by
    exact h config [] (by simp)
  intro l
  induction l with
  | nil => exact fun acc hacc kv hkv => hacc kv hkv
  | cons p l ih =>
      intro acc hacc kv hkv
      refine ih _ ?_ kv hkv
      intro kv2 hkv2
      rcases mem_dictSet _ _ _ kv2 hkv2 with hmem | hk
      · exact hacc kv2 hmem
      · exact ⟨p.1, hk⟩

/-- The wildcard-builtin flag computed by `Puft.__init__` is `true` for
every configuration: the lower-case lookup key can never match an
upper-cased key. -/
theorem wildcardFlag_always_true (config : List (String × PyVal)) :
    wildcardBuiltinErrorHandlerEnabled config = true := by
  have hnone : dictGet? (makeUpperKeys config)
      "wildcard_builtin_error_handler_enabled" = none := by
    unfold dictGet?
    rw [List.find?_eq_none.mpr]
    · rfl
    · intro kv hkv
      rcases makeUpperKeys_keys config kv hkv with ⟨k0, hk0⟩
      simp only [hk0, beq_eq_false_iff_ne, ne_eq, Bool.not_eq_true]
      simpa using toUpperStr_ne_flag_key k0
  simp [wildcardBuiltinErrorHandlerEnabled, hnone]

/-- C6 — observed behavior at the failing input: a Host configuration
that sets the flag key to `false` (in either case convention) still
yields an enabled flag — the flag is `true` for every configuration, so
the `Exception` handler is always registered and operators cannot turn
the registration off; the registration itself ignores caller
descriptors. -/
theorem c6_wildcard_builtin_flag_code_eval :
    wildcardBuiltinErrorHandlerEnabled
      [("wildcard_builtin_error_handler_enabled", PyVal.pybool false)] =
        true ∧
    wildcardBuiltinErrorHandlerEnabled
      [("WILDCARD_BUILTIN_ERROR_HANDLER_ENABLED", PyVal.pybool false)] =
        true ∧
    (∀ config : List (String × PyVal),
      wildcardBuiltinErrorHandlerEnabled config = true) ∧
    (∀ errorIes : List ErrorIe,
      (PyClass.exceptionCls, Handler.wildcardBuiltin) ∈
        buildErrors errorIes true) := by
  refine ⟨wildcardFlag_always_true _, wildcardFlag_always_true _,
    wildcardFlag_always_true, fun errorIes => ?_⟩
  simp [buildErrors, List.mem_append]

/-! ## Construction order and singleton registration
(`Assembler.__init__`, `_register_self_singleton`, `_build_all`) -/

/-- The actions of `Assembler.__init__` in source order: plain attribute
setup, loading the Build module, unpacking the Build fields, config
resolution (`_assign_config_ies`), built-in selection
(`_assign_builtin_sv_ies`), initializing the `_custom_svs` dict,
installing `extra_configs_by_name`, the singleton self-registration
(`_register_self_singleton`), and then the `_build_all` phases. -/
inductive InitStep
  | setAttrs
  | loadBuild
  | unpackBuild
  | assignConfigIesStep
  | assignBuiltinSvIesStep
  | initCustomSvs
  | setExtraConfigs
  | registerSelfSingleton
  | buildLogPhase
  | buildSvsPhase
  | buildViewsPhase
  | buildErrorsPhase
  | buildEmtsPhase
  | buildShellProcessorsPhase
  | buildCliCmdsPhase
  | buildSocksPhase
  | postbuildPhase
  deriving DecidableEq, Repr

/-- The action sequence of `Assembler.__init__`, with the `_build_all`
call expanded into its phase calls. -/
def initSequence : List InitStep :=
  [InitStep.setAttrs, InitStep.loadBuild, InitStep.unpackBuild,
   InitStep.assignConfigIesStep, InitStep.assignBuiltinSvIesStep,
   InitStep.initCustomSvs, InitStep.setExtraConfigs,
   InitStep.registerSelfSingleton, InitStep.buildLogPhase,
   InitStep.buildSvsPhase, InitStep.buildViewsPhase,
   InitStep.buildErrorsPhase, InitStep.buildEmtsPhase,
   InitStep.buildShellProcessorsPhase, InitStep.buildCliCmdsPhase,
   InitStep.buildSocksPhase, InitStep.postbuildPhase]

/-- The construction phases named by the claim: the `_build_all` steps
(logging, services, views, errors, emitters, hooks/shell processors,
CLI, sockets, postbuild). -/
def buildPhases : List InitStep :=
  [InitStep.buildLogPhase, InitStep.buildSvsPhase,
   InitStep.buildViewsPhase, InitStep.buildErrorsPhase,
   InitStep.buildEmtsPhase, InitStep.buildShellProcessorsPhase,
   InitStep.buildCliCmdsPhase, InitStep.buildSocksPhase,
   InitStep.postbuildPhase]

/-- Run of `initSequence` recording, for each step, whether the
process-wide singleton slot already held the engine when that step ran
(the registration step itself fills the slot). -/
def initTrace : List (InitStep × Bool) :=
  (initSequence.foldl
    (fun acc s =>
      let filled := acc.2 || (s == InitStep.registerSelfSingleton)
      (acc.1 ++ [(s, filled)], filled))
    ([], false)).1

/-- C7 counterexample: the first action of `Assembler.__init__` is plain
attribute setup, not the singleton self-registration — registration
happens only after build loading, config resolution and built-in
selection, so it is not "the first action of its own construction" as
the claim states. -/
theorem c7_first_action_counterexample :
    initTrace.head? = some (InitStep.setAttrs, false) ∧
    InitStep.setAttrs ≠ InitStep.registerSelfSingleton ∧
    (InitStep.assignConfigIesStep, false) ∈ initTrace := by decide

/-- C7 amended: the engine registers itself in the singleton slot before
any of the construction phases (logging, services, views, errors,
emitters, hooks, CLI, sockets) runs — every phase step of the init trace
executes with the slot already filled, so a lookup during a phase
resolves to the in-progress instance — though the registration is not
the literal first action of the constructor. -/
theorem c7_register_before_phases :
    (∀ p ∈ initTrace, p.1 ∈ buildPhases → p.2 = true) ∧
    initSequence.indexOf InitStep.registerSelfSingleton <
      initSequence.indexOf InitStep.buildLogPhase := by decide

/-- Witness for the amended C7: the services phase runs with the
singleton slot filled. -/
theorem c7_register_before_phases_witness :
    (InitStep.buildSvsPhase, true).2 = true :=
  c7_register_before_phases.1 (InitStep.buildSvsPhase, true) (by decide)
    (by decide)

/-! ## Custom service construction (`Assembler._run_custom_sv_ies`) -/

/-- One custom service descriptor (`SvIe`): the descriptor name and the
constructor class, identified by its `__name__` string. -/
structure SvIe where
  svName : String
  svClassName : String
  deriving DecidableEq, Repr

/-- A constructed custom service instance: the class it was constructed
from and the configuration passed to its constructor. -/
structure SvInstance where
  className : String
  config : List (String × PyVal)
  deriving DecidableEq, Repr

/-- The loop body of `Assembler._run_custom_sv_ies`: for each descriptor
in declaration order, materialize its configuration by name when any
Config Source Entries exist (the empty dict otherwise), construct the
service, and store it into `_custom_svs` under
`cell.sv_class.__name__`; a materialization error propagates and aborts
the loop. -/
def runCustomSvIesLoop (env : AssemblerEnv) :
    List SvIe → List (String × SvInstance) →
    Except ResolutionError (List (String × SvInstance))
  | [], acc => Except.ok acc
  | cell :: rest, acc =>
      match (if env.configIes.isEmpty then Except.ok []
          else assembleSvConfig env cell.svName false) with
      | Except.error e => Except.error e
      | Except.ok svConfig =>
          runCustomSvIesLoop env rest
            (dictSet acc cell.svClassName ⟨cell.svClassName, svConfig⟩)

/-- `Assembler._run_custom_sv_ies`: run the loop starting from the empty
`_custom_svs` dict. -/
def runCustomSvIes (env : AssemblerEnv) (svIes : List SvIe) :
    Except ResolutionError (List (String × SvInstance)) :=
  runCustomSvIesLoop env svIes []

/-- `dictSet` preserves key uniqueness. -/
theorem dictSet_keys_nodup {β : Type} (d : List (String × β))
    (k : String) (v : β) (h : (d.map Prod.fst).Nodup) :
    ((dictSet d k v).map Prod.fst).Nodup := by
  unfold dictSet
  split
  · have heq : (d.map (fun q => if q.1 == k then (k, v) else q)).map
        Prod.fst = d.map Prod.fst := by
      rw [List.map_map]
      apply List.map_congr_left
      intro q hq
      by_cases hqk : q.1 = k
      · simp [hqk]
      · simp [hqk]
    rw [heq]
    exact h
  · next hany =>
      rw [List.map_append]
      have hk : k ∉ d.map Prod.fst := by
        intro hmem
        rcases List.mem_map.mp hmem with ⟨q, hq, hqe⟩
        exact hany (List.any_eq_true.mpr ⟨q, hq, by simp [hqe]⟩)
      simp [List.nodup_append, h, hk]

/-- Every successful run of the custom-service loop from a dict with
unique keys produces a dict with unique keys: the registry never holds
two entries for one class name. -/
theorem runCustomSvIesLoop_keys_nodup (env : AssemblerEnv) :
    ∀ (l : List SvIe) (acc : List (String × SvInstance))
      (m : List (String × SvInstance)),
      runCustomSvIesLoop env l acc = Except.ok m →
      (acc.map Prod.fst).Nodup → (m.map Prod.fst).Nodup := by
  intro l
  induction l with
  | nil =>
      intro acc m h hn
      rw [Except.ok.inj h] at hn
      exact hn
  | cons cell rest ih =>
      intro acc m h hn
      unfold runCustomSvIesLoop at h
      cases hc : (if env.configIes.isEmpty then Except.ok []
          else assembleSvConfig env cell.svName false) with
      | error e =>
          rw [hc] at h
          exact absurd h (by simp)
      | ok cfg =>
          rw [hc] at h
          exact ih _ m h (dictSet_keys_nodup _ _ _ hn)

/-- C9 — Duplicate-registration law: two service descriptors sharing one
constructor class under different names leave exactly one registry entry
for that class, holding the instance constructed from the later
descriptor; in general every successful custom-service run yields a
registry with at most one entry per class name. -/
theorem c9_duplicate_class_last_wins (env : AssemblerEnv)
    (n1 n2 c : String) (hn : n1 ≠ n2)
    (cfg1 cfg2 : List (String × PyVal))
    (h1 : (if env.configIes.isEmpty then Except.ok []
        else assembleSvConfig env n1 false) = Except.ok cfg1)
    (h2 : (if env.configIes.isEmpty then Except.ok []
        else assembleSvConfig env n2 false) = Except.ok cfg2) :
    runCustomSvIes env [⟨n1, c⟩, ⟨n2, c⟩] =
      Except.ok [(c, ⟨c, cfg2⟩)] ∧
    (∀ svIes m, runCustomSvIes env svIes = Except.ok m →
      (m.map Prod.fst).Nodup) := by
  constructor
  · unfold runCustomSvIes
    unfold runCustomSvIesLoop
    rw [h1]
    unfold runCustomSvIesLoop
    rw [h2]
    unfold runCustomSvIesLoop
    simp [dictSet]
  · intro svIes m h
    exact runCustomSvIesLoop_keys_nodup env svIes [] m h (by simp)

/-- Witness for C9: descriptors `user` and `chat` share the class `C`;
`chat` has a config file while `user` has none; the final registry holds
the single entry for `C` carrying the configuration materialized for the
later descriptor `chat`. -/
theorem c9_duplicate_class_last_wins_witness :
    runCustomSvIes
      ⟨[⟨"chat", [("prod", "/c/chat.yaml")]⟩],
        fun _ => [("x", PyVal.pyint 2)], "/r", [], "dev"⟩
      [⟨"user", "C"⟩, ⟨"chat", "C"⟩] =
      Except.ok [("C", ⟨"C",
        [("x", PyVal.pyint 2), ("root_path", PyVal.str "/r")]⟩)] :=
  (c9_duplicate_class_last_wins
    ⟨[⟨"chat", [("prod", "/c/chat.yaml")]⟩],
      fun _ => [("x", PyVal.pyint 2)], "/r", [], "dev"⟩
    "user" "chat" "C" (by decide) []
    [("x", PyVal.pyint 2), ("root_path", PyVal.str "/r")] rfl rfl).1

/-! ## Logging phase (`Assembler.DEFAULT_LOG_PARAMS`,
`Assembler._init_log_class`) -/

/-- The class-level default log parameter dict
`Assembler.DEFAULT_LOG_PARAMS` as it stands at process start. -/
def initialDefaultLogParams : List (String × PyVal) :=
  [("path", PyVal.str "./var/logs/system.log"),
   ("level", PyVal.str "DEBUG"),
   ("format", PyVal.str
     "\x7btime:%Y.%m.%d at %H:%M:%S:%f%z\x7d | \x7blevel\x7d | \x7bextra\x7d >> \x7bmessage\x7d"),
   ("rotation", PyVal.str "10 MB"),
   ("serialize", PyVal.pybool false)]

/-- `Assembler._init_log_class`: `log_kwargs = self.DEFAULT_LOG_PARAMS`
binds the class-level dict by reference (no copy), and the update loop
writes the supplied config's keys into that shared dict.  The first
component of the result is the class attribute after the call (the same
object as the kwargs), the second is the kwargs passed to
`log.configure`.  A `None` or empty config skips the loop (Python
truthiness of `if config:`). -/
def initLogClass (defaultLogParams : List (String × PyVal))
    (config : Option (List (String × PyVal))) :
    List (String × PyVal) × List (String × PyVal) :=
  match config with
  | none => (defaultLogParams, defaultLogParams)
  | some c =>
      if c.isEmpty then (defaultLogParams, defaultLogParams)
      else
        let merged := c.foldl (fun acc kv => dictSet acc kv.1 kv.2)
          defaultLogParams
        (merged, merged)

/-- Folding `dictSet` over pairs whose keys all differ from `k` does not
change the value at `k`. -/
theorem foldl_dictSet_not_mem {β : Type} (c : List (String × β))
    (d : List (String × β)) (k : String)
    (h : ∀ kv ∈ c, kv.1 ≠ k) :
    dictGet? (c.foldl (fun acc kv => dictSet acc kv.1 kv.2) d) k =
      dictGet? d k := by
  induction c generalizing d with
  | nil => rfl
  | cons p rest ih =>
      rw [List.foldl_cons]
      rw [ih _ (fun kv hkv => h kv (List.mem_cons_of_mem p hkv))]
      exact dictGet?_dictSet_ne d k p.1 p.2
        (fun he => (h p (List.mem_cons_self p rest)) he.symm)

/-- Folding `dictSet` over a duplicate-free pair list sets the value at
each of its keys. -/
theorem foldl_dictSet_mem {β : Type} (c : List (String × β))
    (d : List (String × β)) (k : String) (v : β)
    (hmem : (k, v) ∈ c) (hnd : (c.map Prod.fst).Nodup) :
    dictGet? (c.foldl (fun acc kv => dictSet acc kv.1 kv.2) d) k =
      some v := by
  induction c generalizing d with
  | nil => cases hmem
  | cons p rest ih =>
      rw [List.foldl_cons]
      simp only [List.map_cons, List.nodup_cons] at hnd
      rcases List.mem_cons.mp hmem with he | hm
      · have hp1 : p.1 = k := by rw [← he]
        have hk : ∀ kv ∈ rest, kv.1 ≠ k := by
          intro kv hkv hkk
          exact hnd.1 (hp1 ▸ hkk ▸ List.mem_map_of_mem Prod.fst hkv)
        rw [foldl_dictSet_not_mem rest _ k hk]
        rw [show dictSet d p.1 p.2 = dictSet d k v from by rw [← he]]
        exact dictGet?_dictSet_self d k v
      · exact ih _ hm hnd.2

/-- C10 — the logging defaults are not a fixed constant: running
`_init_log_class` with a log config containing the key `k` writes `k`
into the shared `DEFAULT_LOG_PARAMS` dict, and every later logger
initialization in the same process — with no config, or with any config
not mentioning `k` — sees that key among its defaults. -/
theorem c10_default_log_params_mutation
    (st c : List (String × PyVal)) (k : String) (v : PyVal)
    (hmem : (k, v) ∈ c) (hnd : (c.map Prod.fst).Nodup) :
    dictGet? (initLogClass st (some c)).1 k = some v ∧
    dictGet? (initLogClass (initLogClass st (some c)).1 none).2 k =
      some v ∧
    (∀ c2 : List (String × PyVal), (∀ kv ∈ c2, kv.1 ≠ k) →
      dictGet? (initLogClass (initLogClass st (some c)).1 (some c2)).2 k =
        some v) := by
  have hne : c.isEmpty = false := by
    cases c with
    | nil => cases hmem
    | cons p rest => rfl
  have hfst : (initLogClass st (some c)).1 =
      c.foldl (fun acc kv => dictSet acc kv.1 kv.2) st := by
    simp [initLogClass, hne]
  have hbase : dictGet? (initLogClass st (some c)).1 k = some v := by
    rw [hfst]
    exact foldl_dictSet_mem c st k v hmem hnd
  refine ⟨hbase, hbase, fun c2 h2 => ?_⟩
  by_cases hc2 : c2.isEmpty
  · have : c2 = [] := List.isEmpty_iff.mp hc2
    subst this
    simpa [initLogClass] using hbase
  · simp only [initLogClass, hc2, Bool.false_eq_true, if_false]
    rw [foldl_dictSet_not_mem c2 _ k h2]
    exact hbase

/-- Witness for C10: a log config that sets `path` leaves `path` mapped
to the custom value inside the shared defaults, and a later
initialization with no config — and one with a config that only sets
`level` — both see the custom `path` among their kwargs. -/
theorem c10_default_log_params_mutation_witness :
    dictGet? (initLogClass initialDefaultLogParams
      (some [("path", PyVal.str "/custom.log")])).1 "path" =
      some (PyVal.str "/custom.log") ∧
    dictGet? (initLogClass (initLogClass initialDefaultLogParams
      (some [("path", PyVal.str "/custom.log")])).1 none).2 "path" =
      some (PyVal.str "/custom.log") ∧
    dictGet? (initLogClass (initLogClass initialDefaultLogParams
      (some [("path", PyVal.str "/custom.log")])).1
      (some [("level", PyVal.str "INFO")])).2 "path" =
      some (PyVal.str "/custom.log") := by
  have h := c10_default_log_params_mutation initialDefaultLogParams
    [("path", PyVal.str "/custom.log")] "path" (PyVal.str "/custom.log")
    (by decide) (by decide)
  exact ⟨h.1, h.2.1, h.2.2 [("level", PyVal.str "INFO")] (by decide)⟩
